import Mathlib

/-!
Shallow embedding of the request-routing engine of the microservice proxy
(`internal/proxy/handler.go`, fault-injection variant).

Go strings are modelled as Lean `String`; the Go standard-library helpers
used by the source (`strings.Split` with separator "/", `strings.Join` with
separator "/", `strings.HasPrefix`, `strconv.Atoi`) are embedded below over
the character list of the string, which agrees with Go's byte-level
behaviour because every string involved is ASCII and the separator is the
single character '/'.
-/

/-- A character is an ASCII decimal digit. -/
def isDigitCh (c : Char) : Bool := '0' ≤ c && c ≤ '9'

/-- Decimal value of a digit list (most significant first); `none` when the
list is empty or contains a non-digit, mirroring `strconv.ParseUint`. -/
def digitsVal (cs : List Char) : Option Nat :=
  if cs = [] then none
  else if cs.all isDigitCh then
    some (cs.foldl (fun a c => a * 10 + (c.toNat - 48)) 0)
  else none

/-- Embedding of Go `strconv.Atoi`: optional single leading sign, then one
or more decimal digits; values outside the 64-bit int range are errors. -/
def atoi (s : String) : Option Int :=
  match s.data with
  | [] => none
  | c :: rest =>
    if c = '-' then
      match digitsVal rest with
      | some n => if n ≤ 2 ^ 63 then some (-(n : Int)) else none
      | none => none
    else if c = '+' then
      match digitsVal rest with
      | some n => if n ≤ 2 ^ 63 - 1 then some (n : Int) else none
      | none => none
    else
      match digitsVal s.data with
      | some n => if n ≤ 2 ^ 63 - 1 then some (n : Int) else none
      | none => none

/-- Embedding of Go `strings.Split(s, "/")`. -/
def goSplit (s : String) : List String := (s.data.splitOn '/').map String.mk

/-- Embedding of Go `strings.Join(xs, "/")`. -/
def goJoin (xs : List String) : String :=
  String.mk (List.intercalate ['/'] (xs.map String.data))

/-- Helper for `goStartsWith`: boolean list-prefix test. -/
def listPre : List Char → List Char → Bool
  | [], _ => true
  | _ :: _, [] => false
  | a :: as, b :: bs => a == b && listPre as bs

/-- Embedding of Go `strings.HasPrefix(s, p)`. -/
def goStartsWith (s p : String) : Bool := listPre p.data s.data

/-- The `actions` struct of `handler.go`: the parsed proxy path actions. -/
structure actions where
  NextHop : String
  Remaining : String
  IsLastHop : Bool
  IsFault : Bool
  FaultCode : Int
  FaultPercentage : Int
deriving Repr, DecidableEq

/-- The percentage/startIdx pair of `parsePath`'s fault branch: percentage
defaults to 100 and `parts[3]` is consumed (startIdx 4) only when present,
nonempty and numeric. -/
def faultPct (parts : List String) : Int × Nat :=
  if parts.length > 3 ∧ parts.getD 3 "" ≠ "" then
    match atoi (parts.getD 3 "") with
    | some p => (p, 4)
    | none => (100, 3)
  else (100, 3)

/-- The remaining-path reassembly of `parsePath`: everything from `startIdx`
on, joined with "/" and a single leading "/", defaulting to "/". -/
def remainingFrom (parts : List String) (startIdx : Nat) : String :=
  if parts.length > startIdx then "/" ++ goJoin (parts.drop startIdx) else "/"

/-- Embedding of `parsePath` from `handler.go` (fault-injection variant):
validates and parses the proxy path into `actions`, or returns the error
message the Go code produces. -/
def parsePath (path : String) : Except String actions :=
  if path = "" ∨ path = "/" then
    .ok { NextHop := "", Remaining := "/", IsLastHop := true,
          IsFault := false, FaultCode := 0, FaultPercentage := 0 }
  else if (goSplit path).length < 2 then
    .error "invalid path: missing service"
  else if goStartsWith path "/fault/" then
    if (goSplit path).length < 3 then
      .error "invalid fault path: must be /fault/<code> or /fault/<code>/<percentage>"
    else
      match atoi ((goSplit path).getD 2 "") with
      | none => .error "invalid fault code: must be a number"
      | some statusCode =>
        if statusCode < 400 ∨ statusCode > 599 then
          .error "invalid fault code: must be 400-599"
        else
          if (faultPct (goSplit path)).1 < 0 ∨ (faultPct (goSplit path)).1 > 100 then
            .error "invalid fault percentage: must be 0-100"
          else
            .ok { NextHop := "",
                  Remaining := remainingFrom (goSplit path) (faultPct (goSplit path)).2,
                  IsLastHop := false, IsFault := true,
                  FaultCode := statusCode,
                  FaultPercentage := (faultPct (goSplit path)).1 }
  else if ¬ goStartsWith path "/proxy/" then
    .error "invalid path: must start with /proxy/ or /fault/"
  else
    if (goSplit path).getD 2 "" = "" then
      .error "invalid path: empty service name"
    else
      .ok { NextHop := (goSplit path).getD 2 "",
            Remaining := remainingFrom (goSplit path) 3,
            IsLastHop := false, IsFault := false,
            FaultCode := 0, FaultPercentage := 0 }

deriving instance DecidableEq for Except

/-- The `Response` struct of `handler.go`: the standard JSON response body. -/
structure Response where
  Status : Int
  Service : String
  Message : String
deriving Repr, DecidableEq

/-- Embedding of Go `http.StatusText` restricted to the 4xx/5xx table of
`net/http/status.go`; every other code maps to `""` exactly as `StatusText`
returns `""` for unknown codes. -/
def statusText : Int → String
  | 400 => "Bad Request"
  | 401 => "Unauthorized"
  | 402 => "Payment Required"
  | 403 => "Forbidden"
  | 404 => "Not Found"
  | 405 => "Method Not Allowed"
  | 406 => "Not Acceptable"
  | 407 => "Proxy Authentication Required"
  | 408 => "Request Timeout"
  | 409 => "Conflict"
  | 410 => "Gone"
  | 411 => "Length Required"
  | 412 => "Precondition Failed"
  | 413 => "Request Entity Too Large"
  | 414 => "Request URI Too Long"
  | 415 => "Unsupported Media Type"
  | 416 => "Requested Range Not Satisfiable"
  | 417 => "Expectation Failed"
  | 418 => "I\x27m a teapot"
  | 421 => "Misdirected Request"
  | 422 => "Unprocessable Entity"
  | 423 => "Locked"
  | 424 => "Failed Dependency"
  | 425 => "Too Early"
  | 426 => "Upgrade Required"
  | 428 => "Precondition Required"
  | 429 => "Too Many Requests"
  | 431 => "Request Header Fields Too Large"
  | 451 => "Unavailable For Legal Reasons"
  | 500 => "Internal Server Error"
  | 501 => "Not Implemented"
  | 502 => "Bad Gateway"
  | 503 => "Service Unavailable"
  | 504 => "Gateway Timeout"
  | 505 => "HTTP Version Not Supported"
  | 506 => "Variant Also Negotiates"
  | 507 => "Insufficient Storage"
  | 508 => "Loop Detected"
  | 510 => "Not Extended"
  | 511 => "Network Authentication Required"
  | _ => ""

/-- `sendFaultResponse` falls back to "Unknown Error" when `http.StatusText`
is empty. -/
def reasonPhrase (statusCode : Int) : String :=
  let t := statusText statusCode
  if t = "" then "Unknown Error" else t

/-- The body built by `sendFaultResponse`. -/
def faultResponse (serviceName : String) (statusCode : Int) : Response :=
  { Status := statusCode, Service := serviceName,
    Message := "Fault injected: " ++ toString statusCode ++ " " ++ reasonPhrase statusCode }

/-- The body built by `sendFinalResponse` with status 200. -/
def finalResponse (serviceName : String) : Response :=
  { Status := 200, Service := serviceName,
    Message := "Request processed successfully" }

/-- The configuration of a `Handler` that the routing logic reads. -/
structure HandlerCfg where
  serviceName : String
deriving Repr, DecidableEq

/-- The parts of the inbound `*http.Request` the engine can observe:
`r.URL.Path`, `r.Method`, `r.Body`, `r.URL.RawQuery` and `r.Header`. -/
structure Request where
  path : String
  method : String
  body : String
  query : String
  headers : List (String × String)
deriving Repr, DecidableEq

/-- The outbound request built by `http.NewRequestWithContext(ctx, r.Method,
nextHopURL, r.Body)`: a fresh request with no headers set. -/
structure OutboundReq where
  method : String
  url : String
  body : String
  headers : List (String × String)
deriving Repr, DecidableEq

/-- Nondeterministic inputs of one `ServeHTTP` run: the value returned by
`rand.Intn(100)`, whether `h.client.Do` fails, and whether the JSON encoder
fails when writing a local response body. -/
structure Env where
  draw : Int
  forwardFails : Bool
  encodeFails : Bool
deriving Repr, DecidableEq

/-- How `ServeHTTP` answered the original caller. -/
inductive HttpResult where
  | httpError (status : Int) (msg : String)
  | faultInjected (resp : Response)
  | success (resp : Response)
  | relayed (req : OutboundReq)
deriving Repr, DecidableEq

/-- The observable outcome of a `ServeHTTP` run: the response written to the
caller plus every outbound call issued. -/
structure ExecOutcome where
  result : HttpResult
  outboundCalls : List OutboundReq
deriving Repr, DecidableEq

/-- `fmt.Sprintf("http://%s%s", actions.NextHop, actions.Remaining)`. -/
def nextHopURL (a : actions) : String := "http://" ++ a.NextHop ++ a.Remaining

/-- The outbound request `ServeHTTP` constructs for a forward. -/
def buildNextReq (r : Request) (a : actions) : OutboundReq :=
  { method := r.method, url := nextHopURL a, body := r.body, headers := [] }

/-- The tail of `ServeHTTP` after the fault block: final-hop response or
forward to the next hop (`handler.go` lines 280-341). -/
def resolveActions (h : HandlerCfg) (r : Request) (env : Env) (a : actions) :
    ExecOutcome :=
  if a.IsLastHop then
    if env.encodeFails then ⟨.httpError 500 "Response error", []⟩
    else ⟨.success (finalResponse h.serviceName), []⟩
  else
    if env.forwardFails then
      ⟨.httpError 502 "Next hop error", [buildNextReq r a]⟩
    else ⟨.relayed (buildNextReq r a), [buildNextReq r a]⟩

/-- Embedding of `ServeHTTP` (`handler.go` lines 203-341): parse the path,
run the fault block at most once, then resolve the final actions. -/
def serveHTTP (h : HandlerCfg) (r : Request) (env : Env) : ExecOutcome :=
  match parsePath r.path with
  | .error e => ⟨.httpError 400 e, []⟩
  | .ok a =>
    if a.IsFault then
      if env.draw < a.FaultPercentage then
        if env.encodeFails then ⟨.httpError 500 "Response error", []⟩
        else ⟨.faultInjected (faultResponse h.serviceName a.FaultCode), []⟩
      else
        if a.Remaining ≠ "/" then
          match parsePath a.Remaining with
          | .error e => ⟨.httpError 400 e, []⟩
          | .ok b => resolveActions h r env b
        else
          if env.encodeFails then ⟨.httpError 500 "Response error", []⟩
          else ⟨.success (finalResponse h.serviceName), []⟩
    else resolveActions h r env a

/-- The parse reported an error. -/
def isErr : Except String actions → Bool
  | .error _ => true
  | .ok _ => false

/-- The parse succeeded. -/
def isOk : Except String actions → Bool
  | .error _ => false
  | .ok _ => true

/-- Modelled from the spec: a hop `[scheme://]host[:port]` of the path
grammar in spec section 6 (scheme in \x7bhttp, https\x7d, default none). -/
inductive Hop where
  | plain (hp : String)
  | http (hp : String)
  | https (hp : String)
deriving Repr, DecidableEq

/-- The concrete text of a grammar hop. -/
def Hop.render : Hop → String
  | .plain hp => hp
  | .http hp => "http://" ++ hp
  | .https hp => "https://" ++ hp

/-- A hop's `host[:port]` part is nonempty and contains no path separator. -/
def Hop.wf : Hop → Prop
  | .plain hp => hp ≠ "" ∧ '/' ∉ hp.data
  | .http hp => hp ≠ "" ∧ '/' ∉ hp.data
  | .https hp => hp ≠ "" ∧ '/' ∉ hp.data

/-- The hop carries no `scheme://` part. -/
def Hop.isPlain : Hop → Prop
  | .plain _ => True
  | .http _ => False
  | .https _ => False

/-- Modelled from the spec: one directive segment of the grammar in spec
section 6: `/proxy/<hop>`, `/fault/<code>` or `/fault/<code>/<percentage>`. -/
inductive Seg where
  | fwd (hop : Hop)
  | fault (code : String) (pct : Option String)
deriving Repr, DecidableEq

/-- The concrete text of a grammar segment. -/
def Seg.render : Seg → String
  | .fwd hop => "/proxy/" ++ hop.render
  | .fault c none => "/fault/" ++ c
  | .fault c (some q) => "/fault/" ++ c ++ "/" ++ q

/-- Well-formed per the grammar: code token an integer in [400,599],
percentage token an integer in [0,100], hop well-formed. -/
def Seg.wf : Seg → Prop
  | .fwd hop => hop.wf
  | .fault c pct =>
      (∃ n, atoi c = some n ∧ 400 ≤ n ∧ n ≤ 599) ∧
      ∀ q, pct = some q → ∃ m, atoi q = some m ∧ 0 ≤ m ∧ m ≤ 100

/-- Every forward segment of the chain is scheme-free. -/
def Seg.schemeFree : Seg → Prop
  | .fwd hop => hop.isPlain
  | .fault _ _ => True

/-- Concatenation of the rendered segments of a chain. -/
def renderPath : List Seg → String
  | [] => ""
  | s :: rest => s.render ++ renderPath rest

/-- Modelled from the spec: the path grammar of spec section 6 — empty or
`/`, or a nonempty chain of `/proxy/` and `/fault/` segments. -/
def grammarAccepts (p : String) : Prop :=
  p = "" ∨ p = "/" ∨
    ∃ segs : List Seg, segs ≠ [] ∧ (∀ s ∈ segs, s.wf) ∧ p = renderPath segs

/-- As `grammarAccepts`, further requiring every hop to be scheme-free. -/
def grammarAcceptsPlain (p : String) : Prop :=
  p = "" ∨ p = "/" ∨
    ∃ segs : List Seg, segs ≠ [] ∧ (∀ s ∈ segs, s.wf ∧ s.schemeFree) ∧
      p = renderPath segs

/-- The slash-separated tokens a rendered segment contributes, as character
lists. -/
def Seg.toks : Seg → List (List Char)
  | .fwd hop => [['p', 'r', 'o', 'x', 'y'], (Hop.render hop).data]
  | .fault c none => [['f', 'a', 'u', 'l', 't'], c.data]
  | .fault c (some q) => [['f', 'a', 'u', 'l', 't'], c.data, q.data]

/-- All tokens of a chain, in order. -/
def pathToks (segs : List Seg) : List (List Char) := (segs.map Seg.toks).flatten

/-- The remaining path a chain leaves behind once its first segment is
consumed: "/" when nothing follows, otherwise the rendered tail. -/
def renderTail : List Seg → String
  | [] => "/"
  | s :: rest => renderPath (s :: rest)

lemma mk_data (s : String) : String.mk s.data = s := by
  cases s
  rfl

lemma map_mk_data (L : List (List Char)) :
    ((L.map String.mk).map String.data) = L := by
  induction L with
  | nil => rfl
  | cons a L ih => simp [ih]

lemma ic_singleton (a : List Char) : List.intercalate ['/'] [a] = a := by
  simp [List.intercalate]

lemma ic_cons_cons (a b : List Char) (l : List (List Char)) :
    List.intercalate ['/'] (a :: b :: l) =
      a ++ '/' :: List.intercalate ['/'] (b :: l) := by
  simp [List.intercalate]

lemma ic_ne_nil (a : List Char) (l : List (List Char)) (ha : a ≠ []) :
    List.intercalate ['/'] (a :: l) ≠ [] := by
  cases l with
  | nil => simpa [ic_singleton] using ha
  | cons b l' =>
    rw [ic_cons_cons]
    simp

lemma ic_append (A B : List (List Char)) (hA : A ≠ []) (hB : B ≠ []) :
    List.intercalate ['/'] (A ++ B) =
      List.intercalate ['/'] A ++ '/' :: List.intercalate ['/'] B := by
  induction A with
  | nil => exact absurd rfl hA
  | cons a A' ih =>
    cases A' with
    | nil =>
      cases B with
      | nil => exact absurd rfl hB
      | cons b B' => rw [List.singleton_append, ic_cons_cons, ic_singleton]
    | cons a' A'' =>
      have ih' := ih (by simp)
      simp only [List.cons_append] at ih' ⊢
      rw [ic_cons_cons, ic_cons_cons, ih']
      simp [List.append_assoc]

lemma toks_ne_nil (s : Seg) : s.toks ≠ [] := by
  cases s with
  | fwd hop => simp [Seg.toks]
  | fault c pct => cases pct <;> simp [Seg.toks]

lemma pathToks_cons (s : Seg) (rest : List Seg) :
    pathToks (s :: rest) = s.toks ++ pathToks rest := by
  simp [pathToks]

lemma pathToks_ne_nil (segs : List Seg) (h : segs ≠ []) : pathToks segs ≠ [] := by
  cases segs with
  | nil => exact absurd rfl h
  | cons s rest =>
    rw [pathToks_cons]
    intro hcontra
    exact toks_ne_nil s (List.append_eq_nil.mp hcontra).1

lemma segD (s : Seg) :
    (Seg.render s).data = '/' :: List.intercalate ['/'] s.toks := by
  have hp : "/proxy/".data = ['/', 'p', 'r', 'o', 'x', 'y', '/'] := rfl
  have hf : "/fault/".data = ['/', 'f', 'a', 'u', 'l', 't', '/'] := rfl
  have hs : "/".data = ['/'] := rfl
  cases s with
  | fwd hop =>
    simp [Seg.render, Seg.toks, List.intercalate, List.intersperse, hp]
  | fault c pct =>
    cases pct with
    | none => simp [Seg.render, Seg.toks, List.intercalate, List.intersperse, hf]
    | some q =>
      simp [Seg.render, Seg.toks, List.intercalate, List.intersperse, hf, hs]

lemma renderPath_data (segs : List Seg) (h : segs ≠ []) :
    (renderPath segs).data = '/' :: List.intercalate ['/'] (pathToks segs) := by
  induction segs with
  | nil => exact absurd rfl h
  | cons s rest ih =>
    cases rest with
    | nil =>
      show (Seg.render s ++ renderPath []).data = _
      simp [renderPath, segD s, pathToks]
    | cons s' rest' =>
      show (Seg.render s ++ renderPath (s' :: rest')).data = _
      rw [String.data_append, segD s, ih (by simp)]
      rw [pathToks_cons s (s' :: rest')]
      rw [ic_append s.toks (pathToks (s' :: rest')) (toks_ne_nil s)
        (pathToks_ne_nil _ (by simp))]
      simp

lemma goSplit_render (segs : List Seg) (hne : segs ≠ [])
    (hx : ∀ t ∈ pathToks segs, '/' ∉ t) :
    goSplit (renderPath segs) = "" :: (pathToks segs).map String.mk := by
  unfold goSplit
  rw [renderPath_data segs hne]
  have h1 : ('/' :: List.intercalate ['/'] (pathToks segs)).splitOn '/' =
      [] :: (List.intercalate ['/'] (pathToks segs)).splitOn '/' := by
    simp [List.splitOn, List.splitOnP_cons]
  have h2 : (List.intercalate ['/'] (pathToks segs)).splitOn '/' =
      pathToks segs :=
    List.splitOn_intercalate (pathToks segs) '/' hx (pathToks_ne_nil segs hne)
  rw [h1, h2]
  rfl

lemma digitsVal_noslash (cs : List Char) (n : Nat) (h : digitsVal cs = some n) :
    '/' ∉ cs := by
  unfold digitsVal at h
  split_ifs at h with h1 h2
  intro hmem
  have hd := List.all_eq_true.mp h2 '/' hmem
  exact absurd hd (by decide)

lemma atoi_noslash {s : String} {n : Int} (h : atoi s = some n) :
    '/' ∉ s.data := by
  unfold atoi at h
  split at h
  · exact absurd h (by simp)
  · rename_i c rest heq
    split_ifs at h with hminus hplus
    · split at h
      · rename_i m hm
        rw [heq]
        intro hmem
        rcases List.mem_cons.mp hmem with hc | hr
        · exact absurd (hc.trans hminus) (by decide)
        · exact digitsVal_noslash rest m hm hr
      · exact absurd h (by simp)
    · split at h
      · rename_i m hm
        rw [heq]
        intro hmem
        rcases List.mem_cons.mp hmem with hc | hr
        · exact absurd (hc.trans hplus) (by decide)
        · exact digitsVal_noslash rest m hm hr
      · exact absurd h (by simp)
    · split at h
      · rename_i m hm
        exact digitsVal_noslash s.data m hm
      · exact absurd h (by simp)

lemma atoi_ne_empty {s : String} {n : Int} (h : atoi s = some n) : s ≠ "" := by
  intro he
  rw [he, show atoi "" = none from rfl] at h
  exact Option.noConfusion h

lemma listPre_self_append (l r : List Char) : listPre l (l ++ r) = true := by
  induction l with
  | nil => rfl
  | cons a l ih => simp [listPre, ih]

lemma gsw_append (p pre : String) (r : List Char)
    (h : p.data = pre.data ++ r) : goStartsWith p pre = true := by
  unfold goStartsWith
  rw [h]
  exact listPre_self_append _ _

lemma not_fault_of_proxy_data (p : String) (xs : List Char)
    (h : p.data = '/' :: 'p' :: xs) : goStartsWith p "/fault/" = false := by
  unfold goStartsWith
  rw [h, show "/fault/".data = ['/', 'f', 'a', 'u', 'l', 't', '/'] from rfl]
  simp [listPre]

lemma toks_wf_noslash (s : Seg) (hw : s.wf) (hsf : s.schemeFree) :
    ∀ t ∈ s.toks, '/' ∉ t := by
  cases s with
  | fwd hop =>
    cases hop with
    | plain hp =>
      intro t ht
      simp [Seg.toks, Hop.render] at ht
      rcases ht with h1 | h2
      · subst h1
        decide
      · subst h2
        exact hw.2
    | http hp => exact hsf.elim
    | https hp => exact hsf.elim
  | fault c pct =>
    obtain ⟨⟨nc, hc, _, _⟩, hq⟩ := hw
    cases pct with
    | none =>
      intro t ht
      simp [Seg.toks] at ht
      rcases ht with h1 | h2
      · subst h1
        decide
      · subst h2
        exact atoi_noslash hc
    | some q =>
      obtain ⟨m, hm, _, _⟩ := hq q rfl
      intro t ht
      simp [Seg.toks] at ht
      rcases ht with h1 | h2 | h3
      · subst h1
        decide
      · subst h2
        exact atoi_noslash hc
      · subst h3
        exact atoi_noslash hm

lemma pathToks_noslash (segs : List Seg)
    (h : ∀ s ∈ segs, s.wf ∧ s.schemeFree) :
    ∀ t ∈ pathToks segs, '/' ∉ t := by
  induction segs with
  | nil => simp [pathToks]
  | cons s rest ih =>
    rw [pathToks_cons]
    intro t ht
    rcases List.mem_append.mp ht with h1 | h2
    · exact toks_wf_noslash s (h s (by simp)).1 (h s (by simp)).2 t h1
    · exact ih (fun x hx => h x (by simp [hx])) t h2

lemma toks_head (s : Seg) :
    ∃ t ts, s.toks = t :: ts ∧ atoi (String.mk t) = none ∧ t ≠ [] := by
  cases s with
  | fwd hop => exact ⟨_, _, rfl, by decide, by decide⟩
  | fault c pct =>
    cases pct with
    | none => exact ⟨_, _, rfl, by decide, by decide⟩
    | some q => exact ⟨_, _, rfl, by decide, by decide⟩

lemma tail_join (rest : List Seg) (hne : rest ≠ []) :
    "/" ++ goJoin ((pathToks rest).map String.mk) = renderPath rest := by
  apply String.ext
  rw [String.data_append, renderPath_data rest hne]
  unfold goJoin
  rw [map_mk_data]
  rfl

lemma parse_render_fwd (hp : String) (rest : List Seg)
    (hw : (Seg.fwd (Hop.plain hp)).wf)
    (hrest : ∀ t ∈ rest, t.wf ∧ t.schemeFree) :
    parsePath (renderPath (Seg.fwd (Hop.plain hp) :: rest)) =
      .ok (actions.mk hp (renderTail rest) false false 0 0) := by
  have hwp : hp ≠ "" := hw.1
  have hall : ∀ t ∈ pathToks (Seg.fwd (Hop.plain hp) :: rest), '/' ∉ t := by
    apply pathToks_noslash
    intro x hx
    rcases List.mem_cons.mp hx with h1 | h2
    · subst h1
      exact ⟨hw, trivial⟩
    · exact hrest x h2
  have htk : pathToks (Seg.fwd (Hop.plain hp) :: rest) =
      ['p', 'r', 'o', 'x', 'y'] :: hp.data :: pathToks rest := by
    rw [pathToks_cons]
    rfl
  have hdata : (renderPath (Seg.fwd (Hop.plain hp) :: rest)).data =
      '/' :: 'p' :: 'r' :: 'o' :: 'x' :: 'y' :: '/' ::
        List.intercalate ['/'] (hp.data :: pathToks rest) := by
    rw [renderPath_data _ (by simp), htk, ic_cons_cons]
    rfl
  have hsplit : goSplit (renderPath (Seg.fwd (Hop.plain hp) :: rest)) =
      "" :: String.mk ['p', 'r', 'o', 'x', 'y'] :: hp ::
        (pathToks rest).map String.mk := by
    rw [goSplit_render _ (by simp) hall, htk]
    simp [mk_data]
  have hne0 : renderPath (Seg.fwd (Hop.plain hp) :: rest) ≠ "" := by
    intro he
    rw [he] at hdata
    have h0 : ("" : String).data = [] := rfl
    rw [h0] at hdata
    exact List.noConfusion hdata
  have hne1 : renderPath (Seg.fwd (Hop.plain hp) :: rest) ≠ "/" := by
    intro he
    rw [he] at hdata
    have h0 : ("/" : String).data = ['/'] := rfl
    rw [h0] at hdata
    injection hdata with _ htl
    exact List.noConfusion htl
  have hp0 : ¬(renderPath (Seg.fwd (Hop.plain hp) :: rest) = "" ∨
      renderPath (Seg.fwd (Hop.plain hp) :: rest) = "/") := by
    rintro (he | he)
    exacts [hne0 he, hne1 he]
  have hlen2 : ¬ (goSplit (renderPath (Seg.fwd (Hop.plain hp) :: rest))).length < 2 := by
    rw [hsplit]
    simp
  have hfs : goStartsWith (renderPath (Seg.fwd (Hop.plain hp) :: rest)) "/fault/" = false :=
    not_fault_of_proxy_data _ _ hdata
  have hps : goStartsWith (renderPath (Seg.fwd (Hop.plain hp) :: rest)) "/proxy/" = true := by
    apply gsw_append _ _ (List.intercalate ['/'] (hp.data :: pathToks rest))
    rw [hdata]
    rfl
  have hgd2 : (goSplit (renderPath (Seg.fwd (Hop.plain hp) :: rest))).getD 2 "" = hp := by
    rw [hsplit]
    rfl
  have hrem : remainingFrom (goSplit (renderPath (Seg.fwd (Hop.plain hp) :: rest))) 3 =
      renderTail rest := by
    cases rest with
    | nil =>
      unfold remainingFrom
      rw [hsplit]
      simp [pathToks, renderTail]
    | cons s' rest' =>
      unfold remainingFrom
      rw [hsplit]
      have hpos : 0 < (pathToks (s' :: rest')).length :=
        List.length_pos.mpr (pathToks_ne_nil (s' :: rest') (by simp))
      rw [if_pos (by simp; omega)]
      show "/" ++ goJoin ((pathToks (s' :: rest')).map String.mk) = _
      rw [tail_join (s' :: rest') (by simp)]
      rfl
  unfold parsePath
  rw [if_neg hp0, if_neg hlen2,
    if_neg (show ¬ goStartsWith (renderPath (Seg.fwd (Hop.plain hp) :: rest))
        "/fault/" = true by simp [hfs]),
    if_neg (show ¬ ¬ goStartsWith (renderPath (Seg.fwd (Hop.plain hp) :: rest))
        "/proxy/" = true by simp [hps]),
    if_neg (show ¬ (goSplit (renderPath (Seg.fwd (Hop.plain hp) :: rest))).getD 2 ""
        = "" by rw [hgd2]; exact hwp),
    hgd2, hrem]

lemma parse_render_fault_some (c q : String) (rest : List Seg)
    (hw : (Seg.fault c (some q)).wf)
    (hrest : ∀ t ∈ rest, t.wf ∧ t.schemeFree) :
    ∃ nc m, parsePath (renderPath (Seg.fault c (some q) :: rest)) =
      .ok (actions.mk "" (renderTail rest) false true nc m) := by
  obtain ⟨⟨nc, hc, hc1, hc2⟩, hqw⟩ := hw
  obtain ⟨m, hm, hm1, hm2⟩ := hqw q rfl
  refine ⟨nc, m, ?_⟩
  have hall : ∀ t ∈ pathToks (Seg.fault c (some q) :: rest), '/' ∉ t := by
    apply pathToks_noslash
    intro x hx
    rcases List.mem_cons.mp hx with h1 | h2
    · subst h1
      exact ⟨⟨⟨nc, hc, hc1, hc2⟩, fun y hy => by cases hy; exact ⟨m, hm, hm1, hm2⟩⟩,
        trivial⟩
    · exact hrest x h2
  have htk : pathToks (Seg.fault c (some q) :: rest) =
      ['f', 'a', 'u', 'l', 't'] :: c.data :: q.data :: pathToks rest := by
    rw [pathToks_cons]
    rfl
  have hdata : (renderPath (Seg.fault c (some q) :: rest)).data =
      '/' :: 'f' :: 'a' :: 'u' :: 'l' :: 't' :: '/' ::
        List.intercalate ['/'] (c.data :: q.data :: pathToks rest) := by
    rw [renderPath_data _ (by simp), htk, ic_cons_cons]
    rfl
  have hsplit : goSplit (renderPath (Seg.fault c (some q) :: rest)) =
      "" :: String.mk ['f', 'a', 'u', 'l', 't'] :: c :: q ::
        (pathToks rest).map String.mk := by
    rw [goSplit_render _ (by simp) hall, htk]
    simp [mk_data]
  have hne0 : renderPath (Seg.fault c (some q) :: rest) ≠ "" := by
    intro he
    rw [he] at hdata
    have h0 : ("" : String).data = [] := rfl
    rw [h0] at hdata
    exact List.noConfusion hdata
  have hne1 : renderPath (Seg.fault c (some q) :: rest) ≠ "/" := by
    intro he
    rw [he] at hdata
    have h0 : ("/" : String).data = ['/'] := rfl
    rw [h0] at hdata
    injection hdata with _ htl
    exact List.noConfusion htl
  have hp0 : ¬(renderPath (Seg.fault c (some q) :: rest) = "" ∨
      renderPath (Seg.fault c (some q) :: rest) = "/") := by
    rintro (he | he)
    exacts [hne0 he, hne1 he]
  have hlen2 : ¬ (goSplit (renderPath (Seg.fault c (some q) :: rest))).length < 2 := by
    rw [hsplit]
    simp
  have hlen3 : ¬ (goSplit (renderPath (Seg.fault c (some q) :: rest))).length < 3 := by
    rw [hsplit]
    simp
  have hfs : goStartsWith (renderPath (Seg.fault c (some q) :: rest)) "/fault/" = true := by
    apply gsw_append _ _
      (List.intercalate ['/'] (c.data :: q.data :: pathToks rest))
    rw [hdata]
    rfl
  have hgd2 : (goSplit (renderPath (Seg.fault c (some q) :: rest))).getD 2 "" = c := by
    rw [hsplit]
    rfl
  have hgd3 : (goSplit (renderPath (Seg.fault c (some q) :: rest))).getD 3 "" = q := by
    rw [hsplit]
    rfl
  have hfp : faultPct (goSplit (renderPath (Seg.fault c (some q) :: rest))) = (m, 4) := by
    unfold faultPct
    rw [if_pos ⟨by rw [hsplit]; simp, by rw [hgd3]; exact atoi_ne_empty hm⟩,
      hgd3, hm]
  have hrem : remainingFrom (goSplit (renderPath (Seg.fault c (some q) :: rest))) 4 =
      renderTail rest := by
    cases rest with
    | nil =>
      unfold remainingFrom
      rw [hsplit]
      simp [pathToks, renderTail]
    | cons s' rest' =>
      unfold remainingFrom
      rw [hsplit]
      have hpos : 0 < (pathToks (s' :: rest')).length :=
        List.length_pos.mpr (pathToks_ne_nil (s' :: rest') (by simp))
      rw [if_pos (by simp; omega)]
      show "/" ++ goJoin ((pathToks (s' :: rest')).map String.mk) = _
      rw [tail_join (s' :: rest') (by simp)]
      rfl
  unfold parsePath
  rw [if_neg hp0, if_neg hlen2, if_pos hfs, if_neg hlen3, hgd2, hc]
  dsimp only
  rw [if_neg (show ¬(nc < 400 ∨ nc > 599) by omega), hfp]
  dsimp only
  rw [if_neg (show ¬((m : Int) < 0 ∨ (m : Int) > 100) by omega), hrem]

lemma parse_render_fault_none (c : String) (rest : List Seg)
    (hw : (Seg.fault c none).wf)
    (hrest : ∀ t ∈ rest, t.wf ∧ t.schemeFree) :
    ∃ nc, parsePath (renderPath (Seg.fault c none :: rest)) =
      .ok (actions.mk "" (renderTail rest) false true nc 100) := by
  obtain ⟨⟨nc, hc, hc1, hc2⟩, hqw⟩ := hw
  refine ⟨nc, ?_⟩
  have hall : ∀ t ∈ pathToks (Seg.fault c none :: rest), '/' ∉ t := by
    apply pathToks_noslash
    intro x hx
    rcases List.mem_cons.mp hx with h1 | h2
    · subst h1
      exact ⟨⟨⟨nc, hc, hc1, hc2⟩, fun y hy => by cases hy⟩, trivial⟩
    · exact hrest x h2
  have htk : pathToks (Seg.fault c none :: rest) =
      ['f', 'a', 'u', 'l', 't'] :: c.data :: pathToks rest := by
    rw [pathToks_cons]
    rfl
  have hdata : (renderPath (Seg.fault c none :: rest)).data =
      '/' :: 'f' :: 'a' :: 'u' :: 'l' :: 't' :: '/' ::
        List.intercalate ['/'] (c.data :: pathToks rest) := by
    rw [renderPath_data _ (by simp), htk, ic_cons_cons]
    rfl
  have hsplit : goSplit (renderPath (Seg.fault c none :: rest)) =
      "" :: String.mk ['f', 'a', 'u', 'l', 't'] :: c ::
        (pathToks rest).map String.mk := by
    rw [goSplit_render _ (by simp) hall, htk]
    simp [mk_data]
  have hne0 : renderPath (Seg.fault c none :: rest) ≠ "" := by
    intro he
    rw [he] at hdata
    have h0 : ("" : String).data = [] := rfl
    rw [h0] at hdata
    exact List.noConfusion hdata
  have hne1 : renderPath (Seg.fault c none :: rest) ≠ "/" := by
    intro he
    rw [he] at hdata
    have h0 : ("/" : String).data = ['/'] := rfl
    rw [h0] at hdata
    injection hdata with _ htl
    exact List.noConfusion htl
  have hp0 : ¬(renderPath (Seg.fault c none :: rest) = "" ∨
      renderPath (Seg.fault c none :: rest) = "/") := by
    rintro (he | he)
    exacts [hne0 he, hne1 he]
  have hlen2 : ¬ (goSplit (renderPath (Seg.fault c none :: rest))).length < 2 := by
    rw [hsplit]
    simp
  have hlen3 : ¬ (goSplit (renderPath (Seg.fault c none :: rest))).length < 3 := by
    rw [hsplit]
    simp
  have hfs : goStartsWith (renderPath (Seg.fault c none :: rest)) "/fault/" = true := by
    apply gsw_append _ _ (List.intercalate ['/'] (c.data :: pathToks rest))
    rw [hdata]
    rfl
  have hgd2 : (goSplit (renderPath (Seg.fault c none :: rest))).getD 2 "" = c := by
    rw [hsplit]
    rfl
  have hfp : faultPct (goSplit (renderPath (Seg.fault c none :: rest))) = (100, 3) := by
    cases rest with
    | nil =>
      unfold faultPct
      rw [if_neg]
      rw [hsplit]
      simp [pathToks]
    | cons s' rest' =>
      obtain ⟨t, ts, hts, hta, htn⟩ := toks_head s'
      have hptk : pathToks (s' :: rest') = t :: (ts ++ pathToks rest') := by
        rw [pathToks_cons, hts, List.cons_append]
      have hgd3 : (goSplit (renderPath (Seg.fault c none :: rest'.cons s'))).getD 3 ""
          = String.mk t := by
        rw [hsplit, hptk]
        rfl
      have hmkt : String.mk t ≠ "" := by
        intro he
        have : (String.mk t).data = t := rfl
        rw [he] at this
        exact htn this.symm
      unfold faultPct
      rw [if_pos ⟨by rw [hsplit, hptk]; simp, by rw [hgd3]; exact hmkt⟩, hgd3, hta]
  have hrem : remainingFrom (goSplit (renderPath (Seg.fault c none :: rest))) 3 =
      renderTail rest := by
    cases rest with
    | nil =>
      unfold remainingFrom
      rw [hsplit]
      simp [pathToks, renderTail]
    | cons s' rest' =>
      unfold remainingFrom
      rw [hsplit]
      have hpos : 0 < (pathToks (s' :: rest')).length :=
        List.length_pos.mpr (pathToks_ne_nil (s' :: rest') (by simp))
      rw [if_pos (by simp; omega)]
      show "/" ++ goJoin ((pathToks (s' :: rest')).map String.mk) = _
      rw [tail_join (s' :: rest') (by simp)]
      rfl
  unfold parsePath
  rw [if_neg hp0, if_neg hlen2, if_pos hfs, if_neg hlen3, hgd2, hc]
  dsimp only
  rw [if_neg (show ¬(nc < 400 ∨ nc > 599) by omega), hfp]
  dsimp only
  rw [if_neg (show ¬((100 : Int) < 0 ∨ (100 : Int) > 100) by omega), hrem]

lemma parse_render (s : Seg) (rest : List Seg)
    (hall : ∀ t ∈ s :: rest, t.wf ∧ t.schemeFree) :
    ∃ a, parsePath (renderPath (s :: rest)) = .ok a ∧
      a.Remaining = renderTail rest := by
  have hrest : ∀ t ∈ rest, t.wf ∧ t.schemeFree :=
    fun t ht => hall t (by simp [ht])
  cases s with
  | fwd hop =>
    cases hop with
    | plain hp =>
      exact ⟨_, parse_render_fwd hp rest (hall _ (by simp)).1 hrest, rfl⟩
    | http hp =>
      have hsf := (hall (Seg.fwd (Hop.http hp)) (by simp)).2
      simp [Seg.schemeFree, Hop.isPlain] at hsf
    | https hp =>
      have hsf := (hall (Seg.fwd (Hop.https hp)) (by simp)).2
      simp [Seg.schemeFree, Hop.isPlain] at hsf
  | fault c pct =>
    cases pct with
    | none =>
      obtain ⟨nc, h⟩ := parse_render_fault_none c rest (hall _ (by simp)).1 hrest
      exact ⟨_, h, rfl⟩
    | some q =>
      obtain ⟨nc, m, h⟩ :=
        parse_render_fault_some c q rest (hall _ (by simp)).1 hrest
      exact ⟨_, h, rfl⟩

lemma resolveActions_result_not_fault (h : HandlerCfg) (r : Request)
    (env : Env) (a : actions) (resp : Response) :
    (resolveActions h r env a).result ≠ .faultInjected resp := by
  unfold resolveActions
  split_ifs <;> simp

lemma serveHTTP_shape (h : HandlerCfg) (r : Request) (env : Env) :
    (∃ e, serveHTTP h r env = ⟨.httpError 400 e, []⟩) ∨
    (serveHTTP h r env = ⟨.httpError 500 "Response error", []⟩) ∨
    (∃ resp, serveHTTP h r env = ⟨.faultInjected resp, []⟩) ∨
    (∃ resp, serveHTTP h r env = ⟨.success resp, []⟩) ∨
    (∃ a : actions, serveHTTP h r env = resolveActions h r env a) := by
  unfold serveHTTP
  split
  · exact .inl ⟨_, rfl⟩
  · split
    · split
      · split
        · exact .inr (.inl rfl)
        · exact .inr (.inr (.inl ⟨_, rfl⟩))
      · split
        · split
          · exact .inl ⟨_, rfl⟩
          · exact .inr (.inr (.inr (.inr ⟨_, rfl⟩)))
        · split
          · exact .inr (.inl rfl)
          · exact .inr (.inr (.inr (.inl ⟨_, rfl⟩)))
    · exact .inr (.inr (.inr (.inr ⟨_, rfl⟩)))

lemma resolveActions_shape (h : HandlerCfg) (r : Request) (env : Env)
    (a : actions) :
    resolveActions h r env a = ⟨.httpError 500 "Response error", []⟩ ∨
    resolveActions h r env a = ⟨.success (finalResponse h.serviceName), []⟩ ∨
    (env.forwardFails = true ∧
      resolveActions h r env a =
        ⟨.httpError 502 "Next hop error", [buildNextReq r a]⟩) ∨
    (env.forwardFails = false ∧
      resolveActions h r env a =
        ⟨.relayed (buildNextReq r a), [buildNextReq r a]⟩) := by
  unfold resolveActions
  split
  · split
    · exact .inl rfl
    · exact .inr (.inl rfl)
  · split
    · rename_i hff
      exact .inr (.inr (.inl ⟨hff, rfl⟩))
    · rename_i hff
      exact .inr (.inr (.inr ⟨by simpa using hff, rfl⟩))

lemma parsePath_fault_fields (p : String) (a : actions)
    (hpa : parsePath p = .ok a) (hf : a.IsFault = true) :
    a.NextHop = "" ∧ a.IsLastHop = false := by
  unfold parsePath at hpa
  split at hpa
  · cases hpa
    simp at hf
  split at hpa
  · exact absurd hpa (by simp)
  split at hpa
  · split at hpa
    · exact absurd hpa (by simp)
    · split at hpa
      · exact absurd hpa (by simp)
      · split at hpa
        · exact absurd hpa (by simp)
        · split at hpa
          · exact absurd hpa (by simp)
          · cases hpa
            exact ⟨rfl, rfl⟩
  split at hpa
  · exact absurd hpa (by simp)
  split at hpa
  · exact absurd hpa (by simp)
  · cases hpa
    simp at hf

lemma resolveActions_req_congr (h : HandlerCfg) (r₁ r₂ : Request) (env : Env)
    (a : actions) (hm : r₁.method = r₂.method) (hb : r₁.body = r₂.body) :
    resolveActions h r₁ env a = resolveActions h r₂ env a := by
  unfold resolveActions buildNextReq
  rw [hm, hb]

lemma serveHTTP_req_congr (h : HandlerCfg) (r₁ r₂ : Request) (env : Env)
    (hp : r₁.path = r₂.path) (hm : r₁.method = r₂.method)
    (hb : r₁.body = r₂.body) :
    serveHTTP h r₁ env = serveHTTP h r₂ env := by
  unfold serveHTTP resolveActions buildNextReq
  rw [hp, hm, hb]

/-- C1: for "/fault/500", parse succeeds with fault status 500, percentage
100 (the default) and remaining path "/"; for "/fault/503/30/proxy/b:8080",
parse succeeds with fault status 503, percentage 30 and remaining path
"/proxy/b:8080". -/
theorem c1_parse_fault_examples :
    parsePath "/fault/500" =
      .ok { NextHop := "", Remaining := "/", IsLastHop := false,
            IsFault := true, FaultCode := 500, FaultPercentage := 100 } ∧
    parsePath "/fault/503/30/proxy/b:8080" =
      .ok { NextHop := "", Remaining := "/proxy/b:8080", IsLastHop := false,
            IsFault := true, FaultCode := 503, FaultPercentage := 30 } := by
  decide

/-- C7: "/fault/399", "/fault/600", "/fault/500/101" and the same path with
percentage segment -1 are all parse errors, and every successful parse of a
fault directive has a status code in [400,599] and a percentage in
[0,100]. -/
theorem c7_fault_range_validation :
    (isErr (parsePath "/fault/399") = true ∧
     isErr (parsePath "/fault/600") = true ∧
     isErr (parsePath "/fault/500/101") = true ∧
     isErr (parsePath "/fault/500/-1") = true) ∧
    ∀ (p : String) (a : actions), parsePath p = .ok a → a.IsFault = true →
      400 ≤ a.FaultCode ∧ a.FaultCode ≤ 599 ∧
      0 ≤ a.FaultPercentage ∧ a.FaultPercentage ≤ 100 := by
  refine ⟨by decide, ?_⟩
  intro p a hpa hf
  unfold parsePath at hpa
  split at hpa
  · cases hpa
    simp at hf
  split at hpa
  · exact absurd hpa (by simp)
  split at hpa
  · split at hpa
    · exact absurd hpa (by simp)
    · split at hpa
      · exact absurd hpa (by simp)
      · rename_i statusCode _
        split at hpa
        · exact absurd hpa (by simp)
        · split at hpa
          · exact absurd hpa (by simp)
          · rename_i hcode hpct
            cases hpa
            push_neg at hcode hpct
            simpa using ⟨hcode.1, hcode.2, hpct.1, hpct.2⟩
  split at hpa
  · exact absurd hpa (by simp)
  split at hpa
  · exact absurd hpa (by simp)
  · cases hpa
    simp at hf

/-- C2: a parsed fault directive fires exactly when the drawn integer is
below the percentage; with percentage 0 no draw in [0,100) ever produces a
fault response, and with percentage 100 every draw in [0,100) does. -/
theorem c2_fault_trigger_probability :
    ∀ (h : HandlerCfg) (r : Request) (env : Env) (a : actions),
      parsePath r.path = .ok a → a.IsFault = true →
      ((env.draw < a.FaultPercentage → env.encodeFails = false →
          (serveHTTP h r env).result =
            .faultInjected (faultResponse h.serviceName a.FaultCode)) ∧
       (¬ env.draw < a.FaultPercentage →
          ∀ resp, (serveHTTP h r env).result ≠ .faultInjected resp) ∧
       (a.FaultPercentage = 0 → 0 ≤ env.draw →
          ∀ resp, (serveHTTP h r env).result ≠ .faultInjected resp) ∧
       (a.FaultPercentage = 100 → env.draw < 100 → env.encodeFails = false →
          (serveHTTP h r env).result =
            .faultInjected (faultResponse h.serviceName a.FaultCode))) := by
  intro h r env a hpa hf
  have fire : env.draw < a.FaultPercentage → env.encodeFails = false →
      (serveHTTP h r env).result =
        .faultInjected (faultResponse h.serviceName a.FaultCode) := by
    intro hd he
    unfold serveHTTP
    rw [hpa]
    simp [hf, hd, he]
  have nofire : ¬ env.draw < a.FaultPercentage →
      ∀ resp, (serveHTTP h r env).result ≠ .faultInjected resp := by
    intro hd resp
    unfold serveHTTP
    rw [hpa]
    simp only [hf, if_true, if_neg hd]
    split
    · split
      · simp
      · exact resolveActions_result_not_fault h r env _ resp
    · split <;> simp
  refine ⟨fire, nofire, ?_, ?_⟩
  · intro h0 hd resp
    exact nofire (by omega) resp
  · intro h100 hd he
    exact fire (by omega) he

/-- Witness for C2 at "/fault/500" with draw 0. -/
theorem c2_fault_trigger_probability_witness :
    (serveHTTP (HandlerCfg.mk "svc") (Request.mk "/fault/500" "GET" "" "" [])
        (Env.mk 0 false false)).result =
      .faultInjected (faultResponse "svc" 500) :=
  (c2_fault_trigger_probability (HandlerCfg.mk "svc")
    (Request.mk "/fault/500" "GET" "" "" []) (Env.mk 0 false false)
    (actions.mk "" "/" false true 500 100) (by decide) rfl).1 (by decide) rfl

/-- C3: when a fault fires, the executor answers with exactly the fault
status, the local service name and the message
"Fault injected: <code> <reason phrase>", and issues no outbound call. -/
theorem c3_fault_response_shape :
    ∀ (h : HandlerCfg) (r : Request) (env : Env) (a : actions),
      parsePath r.path = .ok a → a.IsFault = true →
      env.draw < a.FaultPercentage → env.encodeFails = false →
      serveHTTP h r env =
        ⟨.faultInjected
            { Status := a.FaultCode, Service := h.serviceName,
              Message := "Fault injected: " ++ toString a.FaultCode ++ " " ++
                reasonPhrase a.FaultCode }, []⟩ := by
  intro h r env a hpa hf hd he
  unfold serveHTTP
  rw [hpa]
  simp [hf, hd, he, faultResponse]

/-- Witness for C3 at "/fault/503/30/proxy/b:8080" with draw 10. -/
theorem c3_fault_response_shape_witness :
    serveHTTP (HandlerCfg.mk "svc")
        (Request.mk "/fault/503/30/proxy/b:8080" "GET" "" "" [])
        (Env.mk 10 false false) =
      ⟨.faultInjected
          { Status := 503, Service := "svc",
            Message := "Fault injected: " ++ toString (503 : Int) ++ " " ++
              reasonPhrase 503 }, []⟩ :=
  c3_fault_response_shape (HandlerCfg.mk "svc")
    (Request.mk "/fault/503/30/proxy/b:8080" "GET" "" "" [])
    (Env.mk 10 false false) (actions.mk "" "/proxy/b:8080" false true 503 30)
    (by decide) rfl (by decide) rfl

/-- C8: parse errors (of the request path, or of the remaining path after a
non-firing fault) answer 400 with the parse message; a failed outbound call
answers 502; a failed local JSON serialization answers 500; and the engine
never issues more than one outbound call per request (no retry). -/
theorem c8_error_status_mapping :
    (∀ (h : HandlerCfg) (r : Request) (env : Env) (e : String),
        parsePath r.path = .error e →
        serveHTTP h r env = ⟨.httpError 400 e, []⟩) ∧
    (∀ (h : HandlerCfg) (r : Request) (env : Env) (a : actions) (e : String),
        parsePath r.path = .ok a → a.IsFault = true →
        ¬ env.draw < a.FaultPercentage → parsePath a.Remaining = .error e →
        serveHTTP h r env = ⟨.httpError 400 e, []⟩) ∧
    (∀ (h : HandlerCfg) (r : Request) (env : Env),
        env.forwardFails = true → (serveHTTP h r env).outboundCalls ≠ [] →
        (serveHTTP h r env).result = .httpError 502 "Next hop error") ∧
    (∀ (h : HandlerCfg) (r : Request) (env : Env) (a : actions),
        parsePath r.path = .ok a → env.encodeFails = true →
        ((a.IsFault = true ∧ env.draw < a.FaultPercentage) ∨
          (a.IsFault = false ∧ a.IsLastHop = true)) →
        (serveHTTP h r env).result = .httpError 500 "Response error") ∧
    (∀ (h : HandlerCfg) (r : Request) (env : Env),
        (serveHTTP h r env).outboundCalls.length ≤ 1) := by
  refine ⟨?_, ?_, ?_, ?_, ?_⟩
  · intro h r env e he
    unfold serveHTTP
    rw [he]
  · intro h r env a e hpa hf hnd herr
    by_cases hrem : a.Remaining = "/"
    · rw [hrem] at herr
      simp [parsePath] at herr
    · unfold serveHTTP
      rw [hpa]
      simp [hf, hnd, hrem, herr]
  · intro h r env hff hne
    rcases serveHTTP_shape h r env with ⟨e, hs⟩ | hs | ⟨resp, hs⟩ | ⟨resp, hs⟩ | ⟨a, hs⟩ <;>
      rw [hs] at hne ⊢
    · simp at hne
    · simp at hne
    · simp at hne
    · simp at hne
    · rcases resolveActions_shape h r env a with hr | hr | ⟨hff2, hr⟩ | ⟨hr0, hr⟩
      · rw [hr] at hne
        simp at hne
      · rw [hr] at hne
        simp at hne
      · rw [hr]
      · rw [hff] at hr0
        cases hr0
  · intro h r env a hpa he hcase
    rcases hcase with ⟨hf, hd⟩ | ⟨hf, hl⟩
    · unfold serveHTTP
      rw [hpa]
      simp [hf, hd, he]
    · unfold serveHTTP
      rw [hpa]
      simp [hf, resolveActions, hl, he]
  · intro h r env
    rcases serveHTTP_shape h r env with ⟨e, hs⟩ | hs | ⟨resp, hs⟩ | ⟨resp, hs⟩ | ⟨a, hs⟩ <;>
      rw [hs]
    · simp
    · simp
    · simp
    · simp
    · rcases resolveActions_shape h r env a with hr | hr | ⟨_, hr⟩ | ⟨_, hr⟩ <;>
        rw [hr] <;> simp

/-- Witness for C8 at a malformed path and at a failing forward. -/
theorem c8_error_status_mapping_witness :
    serveHTTP (HandlerCfg.mk "svc") (Request.mk "/api/x" "GET" "" "" [])
        (Env.mk 0 false false) =
      ⟨.httpError 400 "invalid path: must start with /proxy/ or /fault/", []⟩ ∧
    (serveHTTP (HandlerCfg.mk "svc") (Request.mk "/proxy/b:8080" "GET" "" "" [])
        (Env.mk 0 true false)).result = .httpError 502 "Next hop error" :=
  ⟨c8_error_status_mapping.1 (HandlerCfg.mk "svc")
      (Request.mk "/api/x" "GET" "" "" []) (Env.mk 0 false false)
      "invalid path: must start with /proxy/ or /fault/" (by decide),
    c8_error_status_mapping.2.2.1 (HandlerCfg.mk "svc")
      (Request.mk "/proxy/b:8080" "GET" "" "" []) (Env.mk 0 true false) rfl
      (by decide)⟩

/-- Witness for C7 at the concrete input "/fault/500". -/
theorem c7_fault_range_validation_witness :
    400 ≤ (actions.mk "" "/" false true 500 100).FaultCode ∧
    (actions.mk "" "/" false true 500 100).FaultCode ≤ 599 ∧
    0 ≤ (actions.mk "" "/" false true 500 100).FaultPercentage ∧
    (actions.mk "" "/" false true 500 100).FaultPercentage ≤ 100 :=
  c7_fault_range_validation.2 "/fault/500"
    (actions.mk "" "/" false true 500 100) (by decide) rfl

/-- C4 counterexample: in "/fault/500/0/fault/503" the fault does not fire
(draw 0, percentage 0) and the remaining path "/fault/503" re-parses as a
fault directive with percentage 100; the claim would have it fire as a
fault, but the executor instead falls through to the forward branch and
issues an outbound call to "http:///". -/
theorem c4_further_fault_not_processed_counterexample :
    parsePath "/fault/500/0/fault/503" =
      .ok (actions.mk "" "/fault/503" false true 500 0) ∧
    parsePath "/fault/503" = .ok (actions.mk "" "/" false true 503 100) ∧
    serveHTTP (HandlerCfg.mk "svc")
        (Request.mk "/fault/500/0/fault/503" "GET" "" "" [])
        (Env.mk 0 false false) =
      ⟨.relayed (OutboundReq.mk "GET" "http:///" "" []),
        [OutboundReq.mk "GET" "http:///" "" []]⟩ := by
  decide

/-- C4 (amended): when a fault does not fire, the executor re-parses the
remaining path and continues with the re-parsed directive; for a non-fault
re-parse (terminal or forward) the run equals a fresh request on the
remaining path, but a further fault directive is not processed as a fault:
the executor falls through to the forward branch with the fault's empty
next hop, calling "http://" ++ its remaining path. -/
theorem c4_continuation_after_nonfiring_fault :
    ∀ (h : HandlerCfg) (r : Request) (env : Env) (a : actions),
      parsePath r.path = .ok a → a.IsFault = true →
      ¬ env.draw < a.FaultPercentage →
      ((∀ b, parsePath a.Remaining = .ok b → b.IsFault = false →
          serveHTTP h r env =
            serveHTTP h
              (Request.mk a.Remaining r.method r.body r.query r.headers)
              env) ∧
       (∀ b, parsePath a.Remaining = .ok b → b.IsFault = true →
          b.NextHop = "" ∧
          serveHTTP h r env = resolveActions h r env b ∧
          (serveHTTP h r env).outboundCalls =
            [OutboundReq.mk r.method ("http://" ++ b.Remaining) r.body []])) := by
  intro h r env a hpa hf hnd
  constructor
  · intro b hb hbf
    by_cases hrem : a.Remaining = "/"
    · rw [hrem]
      unfold serveHTTP
      rw [hpa]
      simp [hf, hnd, hrem, parsePath, resolveActions]
    · have lhs : serveHTTP h r env = resolveActions h r env b := by
        unfold serveHTTP
        rw [hpa]
        simp [hf, hnd, hrem, hb]
      have rhs : serveHTTP h
          (Request.mk a.Remaining r.method r.body r.query r.headers) env =
          resolveActions h
            (Request.mk a.Remaining r.method r.body r.query r.headers) env b := by
        unfold serveHTTP
        rw [show parsePath
            (Request.mk a.Remaining r.method r.body r.query r.headers).path =
            Except.ok b from hb]
        simp [hbf]
      rw [lhs, rhs]
      exact resolveActions_req_congr h r _ env b rfl rfl
  · intro b hb hbf
    obtain ⟨hnh, hlast⟩ := parsePath_fault_fields a.Remaining b hb hbf
    have hrem : a.Remaining ≠ "/" := by
      intro hr
      rw [hr] at hb
      simp [parsePath] at hb
      rw [← hb] at hbf
      simp at hbf
    have lhs : serveHTTP h r env = resolveActions h r env b := by
      unfold serveHTTP
      rw [hpa]
      simp [hf, hnd, hrem, hb]
    refine ⟨hnh, lhs, ?_⟩
    rw [lhs]
    unfold resolveActions buildNextReq nextHopURL
    simp [hlast, hnh, apply_ite ExecOutcome.outboundCalls]

/-- Witness for the amended C4 at "/fault/500/0/proxy/b:8080" with draw 0. -/
theorem c4_continuation_after_nonfiring_fault_witness :
    serveHTTP (HandlerCfg.mk "svc")
        (Request.mk "/fault/500/0/proxy/b:8080" "GET" "x" "q" [])
        (Env.mk 0 false false) =
      serveHTTP (HandlerCfg.mk "svc")
        (Request.mk "/proxy/b:8080" "GET" "x" "q" []) (Env.mk 0 false false) :=
  (c4_continuation_after_nonfiring_fault (HandlerCfg.mk "svc")
      (Request.mk "/fault/500/0/proxy/b:8080" "GET" "x" "q" [])
      (Env.mk 0 false false) (actions.mk "" "/proxy/b:8080" false true 500 0)
      (by decide) rfl (by decide)).1
    (actions.mk "b:8080" "/" false false 0 0) (by decide) rfl

/-- C5, code behaviour at the failing input: the hop
"/proxy/https://b:8443" parses with next hop "https:" and remaining
"//b:8443", and the outbound call goes to "http://https://b:8443" — the
executor always prepends the literal "http://" scheme, never https. -/
theorem c5_scheme_ignored_code_behavior :
    parsePath "/proxy/https://b:8443" =
      .ok (actions.mk "https:" "//b:8443" false false 0 0) ∧
    serveHTTP (HandlerCfg.mk "svc")
        (Request.mk "/proxy/https://b:8443" "GET" "" "" [])
        (Env.mk 0 false false) =
      ⟨.relayed (OutboundReq.mk "GET" "http://https://b:8443" "" []),
        [OutboundReq.mk "GET" "http://https://b:8443" "" []]⟩ := by
  decide

/-- C6: after a valid fault code, a numeric fourth segment is consumed as
the percentage and an out-of-range value rejects the whole path, while a
non-numeric fourth segment leaves the percentage at 100 and becomes the
first segment of the remaining path. -/
theorem c6_percentage_segment_asymmetry :
    ∀ (p : String) (c : Int),
      goStartsWith p "/fault/" = true →
      atoi ((goSplit p).getD 2 "") = some c →
      ¬(c < 400 ∨ c > 599) →
      (goSplit p).length > 3 →
      (goSplit p).getD 3 "" ≠ "" →
      ((∀ q, atoi ((goSplit p).getD 3 "") = some q → (q < 0 ∨ q > 100) →
          parsePath p = .error "invalid fault percentage: must be 0-100") ∧
       (atoi ((goSplit p).getD 3 "") = none →
          parsePath p =
            .ok (actions.mk "" ("/" ++ goJoin ((goSplit p).drop 3))
              false true c 100))) := by
  intro p c hstart hc hcr hlen hne
  have hp0 : ¬(p = "" ∨ p = "/") := by
    rintro (h0 | h0) <;> rw [h0] at hstart <;> exact absurd hstart (by decide)
  have h2 : ¬(goSplit p).length < 2 := by omega
  have h3 : ¬(goSplit p).length < 3 := by omega
  have hc2 : atoi ((goSplit p)[2]?.getD "") = some c := by simpa using hc
  constructor
  · intro q hq hqr
    have hfp : faultPct (goSplit p) = (q, 4) := by
      unfold faultPct
      rw [if_pos ⟨hlen, hne⟩, hq]
    simp [parsePath, hp0, h2, h3, hstart, hc, hc2, hcr, hfp, hqr]
  · intro hq
    have hfp : faultPct (goSplit p) = (100, 3) := by
      unfold faultPct
      rw [if_pos ⟨hlen, hne⟩, hq]
    have hrem : remainingFrom (goSplit p) 3 = "/" ++ goJoin ((goSplit p).drop 3) := by
      unfold remainingFrom
      rw [if_pos hlen]
    simp [parsePath, hp0, h2, h3, hstart, hc, hc2, hcr, hfp, hrem]

/-- Witness for C6 at "/fault/500/101" (numeric, rejected) and at
"/fault/500/abc" (non-numeric, reinterpreted). -/
theorem c6_percentage_segment_asymmetry_witness :
    parsePath "/fault/500/101" =
      .error "invalid fault percentage: must be 0-100" ∧
    parsePath "/fault/500/abc" =
      .ok (actions.mk "" "/abc" false true 500 100) :=
  ⟨(c6_percentage_segment_asymmetry "/fault/500/101" 500 (by decide)
      (by decide) (by decide) (by decide) (by decide)).1 101 (by decide)
      (by decide),
   by simpa using
     (c6_percentage_segment_asymmetry "/fault/500/abc" 500 (by decide)
       (by decide) (by decide) (by decide) (by decide)).2 (by decide)⟩

/-- C10: the outbound request is built only from the inbound method and
body plus the URL "http://" ++ nextHop ++ remainingPath: the whole run is
independent of the inbound query string and headers, and the outbound
request carries no headers. -/
theorem c10_outbound_request_construction :
    (∀ (h : HandlerCfg) (r : Request) (env : Env) (q : String)
        (hs : List (String × String)),
        serveHTTP h (Request.mk r.path r.method r.body q hs) env =
          serveHTTP h r env) ∧
    (∀ (r : Request) (a : actions),
        buildNextReq r a =
          OutboundReq.mk r.method ("http://" ++ a.NextHop ++ a.Remaining)
            r.body []) ∧
    (∀ (h : HandlerCfg) (r : Request) (env : Env) (req : OutboundReq),
        req ∈ (serveHTTP h r env).outboundCalls →
        req.method = r.method ∧ req.body = r.body ∧ req.headers = []) := by
  refine ⟨?_, ?_, ?_⟩
  · intro h r env q hs
    exact serveHTTP_req_congr h _ r env rfl rfl rfl
  · intro r a
    rfl
  · intro h r env req hreq
    rcases serveHTTP_shape h r env with ⟨e, hsr⟩ | hsr | ⟨resp, hsr⟩ | ⟨resp, hsr⟩ | ⟨a, hsr⟩ <;>
      rw [hsr] at hreq
    · simp at hreq
    · simp at hreq
    · simp at hreq
    · simp at hreq
    · rcases resolveActions_shape h r env a with hr | hr | ⟨hff, hr⟩ | ⟨hff, hr⟩
      · rw [hr] at hreq
        simp at hreq
      · rw [hr] at hreq
        simp at hreq
      · rw [hr] at hreq
        simp at hreq
        subst hreq
        exact ⟨rfl, rfl, rfl⟩
      · rw [hr] at hreq
        simp at hreq
        subst hreq
        exact ⟨rfl, rfl, rfl⟩

/-- Witness for C10 at the forwarded request of "/proxy/b:8080". -/
theorem c10_outbound_request_construction_witness :
    (OutboundReq.mk "GET" "http://b:8080/" "x" []).method = "GET" ∧
    (OutboundReq.mk "GET" "http://b:8080/" "x" []).body = "x" ∧
    (OutboundReq.mk "GET" "http://b:8080/" "x" []).headers =
      ([] : List (String × String)) :=
  c10_outbound_request_construction.2.2 (HandlerCfg.mk "svc")
    (Request.mk "/proxy/b:8080" "GET" "x" "q" []) (Env.mk 0 false false)
    (OutboundReq.mk "GET" "http://b:8080/" "x" []) (by decide)

/-- C9 counterexample: "/proxy/https://b:8443" is accepted by the spec
grammar (a single https-scheme hop) and parse succeeds on it, but the
returned remainingPath "//b:8443" is itself rejected by parse, so the
closure property fails for the grammar as specified. -/
theorem c9_closure_counterexample :
    grammarAccepts "/proxy/https://b:8443" ∧
    parsePath "/proxy/https://b:8443" =
      .ok (actions.mk "https:" "//b:8443" false false 0 0) ∧
    isErr (parsePath "//b:8443") = true := by
  refine ⟨?_, by decide, by decide⟩
  right
  right
  refine ⟨[Seg.fwd (Hop.https "b:8443")], by simp, ?_, by decide⟩
  intro s hs
  simp at hs
  subst hs
  exact ⟨by decide, by decide⟩

/-- C9 (amended): parse is a pure function with parse "" = parse "/" (both
the terminal directive with remaining path "/"), and the closure property
holds on the scheme-free grammar: every grammar-accepted path whose hops
carry no scheme prefix that parse accepts returns a remainingPath on which
parse succeeds again. -/
theorem c9_parse_closure_amended :
    (parsePath "" = parsePath "/" ∧
     parsePath "" = .ok (actions.mk "" "/" true false 0 0)) ∧
    (∀ p : String, grammarAcceptsPlain p → ∀ a : actions,
      parsePath p = .ok a → isOk (parsePath a.Remaining) = true) := by
  refine ⟨⟨by decide, by decide⟩, ?_⟩
  intro p hg a hpa
  rcases hg with h0 | h0 | ⟨segs, hne, hwf, hp⟩
  · subst h0
    rw [show parsePath "" = .ok (actions.mk "" "/" true false 0 0) from
      by decide] at hpa
    injection hpa with h
    subst h
    decide
  · subst h0
    rw [show parsePath "/" = .ok (actions.mk "" "/" true false 0 0) from
      by decide] at hpa
    injection hpa with h
    subst h
    decide
  · subst hp
    cases segs with
    | nil => exact absurd rfl hne
    | cons s rest =>
      obtain ⟨b, hb, hbrem⟩ := parse_render s rest hwf
      rw [hb] at hpa
      injection hpa with h
      subst h
      rw [hbrem]
      cases rest with
      | nil => decide
      | cons s' rest' =>
        obtain ⟨b', hb', _⟩ :=
          parse_render s' rest' (fun t ht => hwf t (by simp [ht]))
        show isOk (parsePath (renderPath (s' :: rest'))) = true
        rw [hb']
        rfl

/-- Witness for the amended C9 at the grammar path "/proxy/b:8080". -/
theorem c9_parse_closure_amended_witness :
    isOk (parsePath (actions.mk "b:8080" "/" false false 0 0).Remaining) = true :=
  c9_parse_closure_amended.2 "/proxy/b:8080"
    (Or.inr (Or.inr ⟨[Seg.fwd (Hop.plain "b:8080")], by simp,
      by
        intro s hs
        simp at hs
        subst hs
        exact ⟨⟨by decide, by decide⟩, trivial⟩,
      by decide⟩))
    (actions.mk "b:8080" "/" false false 0 0) (by decide)
